import Mathlib

/-!
# Verification of the `ayonli/react-hooks` state-management hooks

Shallow embedding of the state logic of the repository's hooks:

* the linear undo/redo history of `src/useRevertibleState.ts` (and the
  identical logic of `useUndoRedo` in `src/unnamed/part_008`),
* the storage-backed state of `src/useStorageStage.ts`,
* the submit/async-data request-lifecycle machines of `useSubmit`
  (`src/unnamed/part_000`, second document), `src/useSubmitter.ts`,
  `src/useAsyncData.ts` and the `useAsyncData` variant of
  `src/unnamed/part_010`.

JavaScript `undefined` is modelled as `Option.none`; a JS value of type `T`
that may be `undefined` is an `Option T`.  Sequencing follows the
single-threaded event-loop model: each hook session is a deterministic step
function on a state record, driven by a list of events.
-/

namespace ReactHooks

/-! ## Linear undo/redo history (`useRevertibleState` / `useUndoRedo`)

State of one history session.  In the source the three pieces are the
`history` array (state), the `index` ref and the exposed `state` value; the
exposed value can in principle be `undefined` in JS (out-of-range array
access), hence `Option T`. -/

structure HistSt (T : Type) where
  entries : List T
  cursor  : Nat
  current : Option T
  deriving Repr, DecidableEq

/-- Initial state of `useRevertibleState(initial)` / `useUndoRedo(initial)`:
`useState(initial)`, `useState([initial])`, `useRef(0)`. -/
def initHist {T : Type} (initial : T) : HistSt T :=
  { entries := [initial], cursor := 0, current := some initial }

/-- A `SetStateAction<T>`: either a literal value or a function of the
previous (possibly `undefined`) value. -/
def resolveAction {T : Type} (a : T ⊕ (Option T → T)) (cur : Option T) : T :=
  match a with
  | .inl v => v
  | .inr f => f cur

/-- The setter of `useRevertibleState` (src/useRevertibleState.ts lines
35-48) and the `setState` of `useUndoRedo` (part_008 lines 21-34):
resolve the action against the current value, truncate the history to
`index + 1` entries when the cursor is not at the last index
(`history.slice(0, index.current + 1)`), append the new value, and
increment the cursor. -/
def revSetState {T : Type} (st : HistSt T) (a : T ⊕ (Option T → T)) : HistSt T :=
  { entries := (if st.cursor < st.entries.length - 1
                then st.entries.take (st.cursor + 1)
                else st.entries) ++ [resolveAction a st.current]
    cursor := st.cursor + 1
    current := some (resolveAction a st.current) }

/-- `undo` (src/useRevertibleState.ts lines 50-55): if `index.current > 0`,
decrement the index and expose `history[index.current]`; else no-op. -/
def revUndo {T : Type} (st : HistSt T) : HistSt T :=
  if 0 < st.cursor then
    { entries := st.entries, cursor := st.cursor - 1
      current := st.entries.get? (st.cursor - 1) }
  else st

/-- `redo` (src/useRevertibleState.ts lines 56-61): if
`index.current < history.length - 1`, increment the index and expose
`history[index.current]`; else no-op. -/
def revRedo {T : Type} (st : HistSt T) : HistSt T :=
  if st.cursor < st.entries.length - 1 then
    { entries := st.entries, cursor := st.cursor + 1
      current := st.entries.get? (st.cursor + 1) }
  else st

/-- `clear` (src/useRevertibleState.ts lines 62-66): reset to the original
initial value. -/
def revClear {T : Type} (initial : T) (_st : HistSt T) : HistSt T :=
  { entries := [initial], cursor := 0, current := some initial }

/-- One user-level operation on a history session. -/
inductive HistOp (T : Type) where
  | push  (v : T)
  | pushf (f : Option T → T)
  | undo
  | redo
  | clear

/-- Apply one history operation. -/
def histStep {T : Type} (initial : T) (st : HistSt T) (op : HistOp T) : HistSt T :=
  match op with
  | .push v  => revSetState st (.inl v)
  | .pushf f => revSetState st (.inr f)
  | .undo    => revUndo st
  | .redo    => revRedo st
  | .clear   => revClear initial st

/-- Run a whole sequence of operations from the initial session state. -/
def histRun {T : Type} (initial : T) (ops : List (HistOp T)) : HistSt T :=
  ops.foldl (histStep initial) (initHist initial)

/-- The spec's history invariant: the cursor is in range and
`entries[cursor]` is the current exposed value. -/
def HistInv {T : Type} (st : HistSt T) : Prop :=
  st.cursor < st.entries.length ∧ st.entries.get? st.cursor = st.current

theorem histInv_init {T : Type} (initial : T) : HistInv (initHist initial) := by
  constructor <;> simp [initHist]

theorem revSetState_inv {T : Type} (st : HistSt T) (a : T ⊕ (Option T → T))
    (h : HistInv st) : HistInv (revSetState st a) := by
  obtain ⟨hlt, hcur⟩ := h
  by_cases hb : st.cursor < st.entries.length - 1
  · have hlen : (st.entries.take (st.cursor + 1)).length = st.cursor + 1 := by
      simp only [List.length_take]
      omega
    constructor
    · simp only [revSetState, if_pos hb, List.length_append, hlen, List.length_cons,
        List.length_nil]
      omega
    · simp only [revSetState, if_pos hb]
      rw [show st.cursor + 1 = (st.entries.take (st.cursor + 1)).length from hlen.symm]
      simp
  · have hc : st.cursor + 1 = st.entries.length := by omega
    constructor
    · simp only [revSetState, if_neg hb, List.length_append, List.length_cons,
        List.length_nil]
      omega
    · simp only [revSetState, if_neg hb]
      rw [hc]
      simp

theorem histInv_step {T : Type} (initial : T) (st : HistSt T) (op : HistOp T)
    (h : HistInv st) : HistInv (histStep initial st op) := by
  obtain ⟨hlt, hcur⟩ := h
  cases op with
  | push v => exact revSetState_inv st (.inl v) ⟨hlt, hcur⟩
  | pushf f => exact revSetState_inv st (.inr f) ⟨hlt, hcur⟩
  | undo =>
    simp only [histStep, revUndo]
    split
    · refine ⟨?_, rfl⟩
      show st.cursor - 1 < st.entries.length
      omega
    · exact ⟨hlt, hcur⟩
  | redo =>
    simp only [histStep, revRedo]
    split
    · next hc =>
      refine ⟨?_, rfl⟩
      show st.cursor + 1 < st.entries.length
      omega
    · exact ⟨hlt, hcur⟩
  | clear =>
    constructor <;> simp [histStep, revClear]

theorem histInv_run {T : Type} (initial : T) (ops : List (HistOp T)) :
    HistInv (histRun initial ops) := by
  suffices h : ∀ (st : HistSt T), HistInv st →
      HistInv (ops.foldl (histStep initial) st) from
    h (initHist initial) (histInv_init initial)
  induction ops with
  | nil => intro st h; exact h
  | cons op rest ih =>
    intro st h
    exact ih (histStep initial st op) (histInv_step initial st op h)

/-! ## Storage-backed state (`useStorageState`, src/useStorageStage.ts) -/

/-- The `initials` argument of `useStorageState`: a value or a thunk
(`T | (() => T)`), resolved lazily. -/
def resolveInitials {T : Type} (i : T ⊕ (Unit → T)) : T :=
  match i with
  | .inl v => v
  | .inr f => f ()

/-- Load-time initializer of `useStorageState` (src/useStorageStage.ts lines
37-58).  `stored` is `storage.getItem(key)` (`none` = `null`); `parse`
models `JSON.parse`, with `none` meaning it threw.  The empty string is
falsy in JS, so `if (storedValue)` skips it.  The second component records
whether a parse failure was logged via `console.error`; the function always
returns normally (failures are swallowed). -/
def storageInit {T : Type} (stored : Option String) (parse : String → Option T)
    (initials : T ⊕ (Unit → T)) : T × Bool :=
  match stored with
  | none => (resolveInitials initials, false)
  | some s =>
    if s = "" then (resolveInitials initials, false)
    else
      match parse s with
      | some v => (v, false)
      | none => (resolveInitials initials, true)

/-- In-memory state of a `useStorageState` session together with the log of
`storage.setItem(key, value)` calls issued so far. -/
structure StoreSt (T : Type) where
  state  : T
  writes : List (String × String)
  deriving Repr, DecidableEq

/-- The `setState` of `useStorageState` (src/useStorageStage.ts lines
70-82): resolve the `SetStateAction`, and when the `deepCompare` option is
set skip the update entirely if `equals(newState, state)` holds; otherwise
`JSON.stringify` the new state, write it to the storage backend under `key`
and update the in-memory state.  `eq` models the external deep comparison
`equals`; `serialize` models `JSON.stringify`. -/
def storageSetState {T : Type} (key : String) (deepCompare : Bool)
    (eq : T → T → Bool) (serialize : T → String) (st : StoreSt T)
    (a : T ⊕ (T → T)) : StoreSt T :=
  let newState := match a with | .inl v => v | .inr f => f st.state
  if deepCompare && eq newState st.state then st
  else { state := newState, writes := st.writes ++ [(key, serialize newState)] }

/-! ## Claims C5-C8, C10 -/

/-- Claim C5: pushing `v` with the cursor not at the last index first
truncates the entries to `cursor + 1` elements, then appends `v` and sets
the cursor to the new last index, so the current value becomes `v`; and
pushing a function `f` is the same as pushing `f` applied to the current
value. -/
theorem c5_push_truncates_appends {T : Type} (st : HistSt T) (v : T)
    (f : Option T → T) (h : st.cursor < st.entries.length - 1) :
    (revSetState st (.inl v)).entries = st.entries.take (st.cursor + 1) ++ [v] ∧
    (revSetState st (.inl v)).cursor = (revSetState st (.inl v)).entries.length - 1 ∧
    (revSetState st (.inl v)).current = some v ∧
    revSetState st (.inr f) = revSetState st (.inl (f st.current)) := by
  have hlen : (st.entries.take (st.cursor + 1)).length = st.cursor + 1 := by
    simp only [List.length_take]
    omega
  refine ⟨?_, ?_, rfl, rfl⟩
  · simp [revSetState, resolveAction, if_pos h]
  · simp [revSetState, resolveAction, if_pos h, hlen]

theorem c5_witness :
    (revSetState (⟨[10, 20, 30], 1, some 20⟩ : HistSt Nat) (.inl 99)).entries
      = [10, 20, 99] := by
  have h := c5_push_truncates_appends (⟨[10, 20, 30], 1, some 20⟩ : HistSt Nat)
    99 (fun o => o.getD 0) (by decide)
  rw [h.1]
  decide

/-- Claim C6: starting from the single-entry initial history state, every
sequence of push, undo, redo and clear operations preserves
`cursor < entries.length` together with `entries[cursor]` being the
current exposed value. -/
theorem c6_history_invariant {T : Type} (initial : T) (ops : List (HistOp T)) :
    (histRun initial ops).cursor < (histRun initial ops).entries.length ∧
    (histRun initial ops).entries.get? (histRun initial ops).cursor
      = (histRun initial ops).current :=
  histInv_run initial ops

/-- Claim C7: `undo` at cursor 0 and `redo` at the last index are no-ops
(the whole state is unchanged); all history operations are total Lean
functions, so none can raise an error. -/
theorem c7_out_of_range_noop {T : Type} (st : HistSt T) :
    (st.cursor = 0 → revUndo st = st) ∧
    (st.cursor = st.entries.length - 1 → revRedo st = st) := by
  constructor
  · intro h
    simp [revUndo, h]
  · intro h
    simp only [revRedo]
    rw [if_neg]
    omega

theorem c7_witness :
    revUndo (⟨[5, 6], 0, some 5⟩ : HistSt Nat) = ⟨[5, 6], 0, some 5⟩ ∧
    revRedo (⟨[5, 6], 1, some 6⟩ : HistSt Nat) = ⟨[5, 6], 1, some 6⟩ :=
  ⟨(c7_out_of_range_noop ⟨[5, 6], 0, some 5⟩).1 rfl,
   (c7_out_of_range_noop ⟨[5, 6], 1, some 6⟩).2 (by decide)⟩

/-- Claim C8: when the stored string fails to deserialize at load time, the
failure is logged and swallowed (the initializer returns normally) and the
resulting state is the supplied initial value. -/
theorem c8_parse_failure_falls_back {T : Type} (s : String)
    (parse : String → Option T) (initials : T ⊕ (Unit → T))
    (hs : s ≠ "") (hp : parse s = none) :
    storageInit (some s) parse initials = (resolveInitials initials, true) := by
  simp [storageInit, hs, hp]

theorem c8_witness :
    storageInit (some "not json") (fun _ => (none : Option Nat)) (.inl 42)
      = (42, true) :=
  c8_parse_failure_falls_back "not json" (fun _ => none) (.inl 42)
    (by decide) rfl

/-- Claim C10: with `deepCompare` enabled, setting a value deeply equal to
the current state changes nothing (state kept, no storage write); setting a
value that is not deeply equal writes the serialized value to storage under
the key and updates the state. -/
theorem c10_deep_compare_skips_write {T : Type} (key : String)
    (eq : T → T → Bool) (serialize : T → String) (st : StoreSt T) (v : T) :
    (eq v st.state = true →
      storageSetState key true eq serialize st (.inl v) = st) ∧
    (eq v st.state = false →
      (storageSetState key true eq serialize st (.inl v)).state = v ∧
      (storageSetState key true eq serialize st (.inl v)).writes
        = st.writes ++ [(key, serialize v)]) := by
  constructor <;> intro h <;> simp [storageSetState, h]

theorem c10_witness :
    storageSetState "k" true (fun a b => a == b) (fun n => toString n)
      (⟨7, []⟩ : StoreSt Nat) (.inl 7) = ⟨7, []⟩ ∧
    (storageSetState "k" true (fun a b => a == b) (fun n => toString n)
      (⟨7, []⟩ : StoreSt Nat) (.inl 8)).state = 8 ∧
    (storageSetState "k" true (fun a b => a == b) (fun n => toString n)
      (⟨7, []⟩ : StoreSt Nat) (.inl 8)).writes = [("k", "8")] := by
  refine ⟨(c10_deep_compare_skips_write "k" (fun a b => a == b)
    (fun n => toString n) ⟨7, []⟩ 7).1 (by decide), ?_⟩
  have h := (c10_deep_compare_skips_write "k" (fun a b => a == b)
    (fun n => toString n) (⟨7, []⟩ : StoreSt Nat) 8).2 (by decide)
  exact ⟨h.1, h.2⟩

/-! ## Promise outcomes, abort signals and runs

Shared by the request-lifecycle machines.  A "run" is one invocation of the
wrapped operation together with the `AbortController` created for it.  A
promise first settles ("latched": its outcome is fixed) and only afterwards
executes its `then`/`catch` handler ("delivered"); between the two, other
code — in particular `abort` — can still execute on the event loop. -/

/-- Terminal outcome of a JS promise: resolve with a possibly-`undefined`
value, or reject with a possibly-`undefined` reason. -/
inductive Outcome (R E : Type) where
  | resolve (v : Option R)
  | reject  (e : Option E)
  deriving Repr, DecidableEq

/-- An undelivered run: still running, or settled with its outcome latched
but the `then`/`catch` handler not yet executed.  `sig` is the state of the
controller's signal: `some reason` once aborted. -/
inductive RunSt (R E : Type) where
  | running (sig : Option E)
  | latched (out : Outcome R E) (sig : Option E)
  deriving Repr, DecidableEq

/-- The reason carried by `AbortController.abort(reason)`: the given value,
or a generic "AbortError" exception when none is supplied. -/
def forwardReason {E : Type} (genericAbort : E) (reason : Option E) : E :=
  reason.getD genericAbort

/-- Abort the controller of the given run, if any: the first abort wins,
aborting an already-aborted controller is a no-op, and a missing run means
the controller (if any) has nothing left to interrupt. -/
def sigAbort {R E : Type} (genericAbort : E) (reason : Option E) :
    Option (RunSt R E) → Option (RunSt R E)
  | some (.running none) =>
      some (.running (some (forwardReason genericAbort reason)))
  | some (.latched out none) =>
      some (.latched out (some (forwardReason genericAbort reason)))
  | r => r

/-- Events driving a submit session on the single-threaded event loop. -/
inductive SEv (T R E : Type) where
  | submit (v : Option T)
  | abort (reason : Option E)
  | latch (out : Outcome R E)
  | deliver
  | reset

/-! ## The `useSubmit` machine (src/unnamed/part_000, second document) -/

/-- State of one `useSubmit` session: the `data` state, the `state` record
(`pending`, `done`, `result`, `error`, plus whether the exposed `abort`
closure targets the active controller or is the installed no-op), and the
in-flight run, if any. -/
structure SubmitSt (T R E : Type) where
  data       : Option T
  pending    : Bool
  done       : Bool
  result     : Option R
  error      : Option E
  abortsCtrl : Bool
  run        : Option (RunSt R E)
  deriving Repr, DecidableEq

/-- Initial `useSubmit` state (part_000 lines 200-207). -/
def initSubmit {T R E : Type} : SubmitSt T R E :=
  { data := none, pending := false, done := false, result := none
    error := none, abortsCtrl := false, run := none }

/-- One step of a `useSubmit` session (part_000 lines 196-264).

* `submit v` is `setData(v)`: if `v` equals the stored data the `[data]`
  effect does not re-run; otherwise the previous effect instance's cleanup
  (`() => ctrl.abort()`, lines 254-256) aborts its controller, and the
  effect body runs: it returns early when the new data is `undefined` or
  the state is pending or done (line 221), else it starts a fresh run
  (lines 225-234).
* `abort reason` calls the exposed abort closure: `ctrl.abort(reason)` when
  it targets the active controller, the no-op otherwise.
* `latch out` is the natural settlement of the in-flight operation.
* `deliver` executes the `then`/`catch` handler of a latched run
  (lines 236-252): it writes the completed state and installs the no-op
  abort; there is no `signal.aborted` check in these handlers.
* `reset` is the `deps`-change effect (lines 209-218): `setData(undefined)`
  (whose data change triggers the `[data]` cleanup abort) and a reset of
  the state record. -/
def submitStep {T R E : Type} [DecidableEq T] (g : E)
    (s : SubmitSt T R E) : SEv T R E → SubmitSt T R E
  | .submit v =>
    if v = s.data then s
    else
      let s1 : SubmitSt T R E := { s with data := v, run := sigAbort g none s.run }
      if v = none ∨ s1.pending ∨ s1.done then s1
      else
        { s1 with
          pending := true, done := false, result := none, error := none,
          abortsCtrl := true, run := some (.running none) }
  | .abort reason =>
    if s.abortsCtrl then { s with run := sigAbort g reason s.run } else s
  | .latch out =>
    match s.run with
    | some (.running sig) => { s with run := some (.latched out sig) }
    | _ => s
  | .deliver =>
    match s.run with
    | some (.latched (.resolve v) _) =>
      { s with
        pending := false, done := true, result := v, error := none,
        abortsCtrl := false, run := none }
    | some (.latched (.reject e) _) =>
      { s with
        pending := false, done := true, result := none, error := e,
        abortsCtrl := false, run := none }
    | _ => s
  | .reset =>
    let s1 : SubmitSt T R E :=
      if s.data = none then s
      else { s with data := none, run := sigAbort g none s.run }
    { s1 with
      pending := false, done := false, result := none, error := none,
      abortsCtrl := false }

/-- Run a `useSubmit` session from its initial state. -/
def submitRun {T R E : Type} [DecidableEq T] (g : E)
    (evs : List (SEv T R E)) : SubmitSt T R E :=
  evs.foldl (submitStep g) initSubmit

/-! ## The `useSubmitter` machine (src/useSubmitter.ts) -/

/-- State of one `useSubmitter` session.  There is no `done` flag in the
source; `settled` is instrumentation marking that some submission has
delivered its terminal outcome (the spec's `Done` phase). -/
structure SubmitterSt (T R E : Type) where
  data       : Option T
  pending    : Bool
  result     : Option R
  error      : Option E
  abortsCtrl : Bool
  settled    : Bool
  run        : Option (RunSt R E)
  deriving Repr, DecidableEq

/-- Initial `useSubmitter` state (src/useSubmitter.ts lines 55-61). -/
def initSubmitter {T R E : Type} : SubmitterSt T R E :=
  { data := none, pending := false, result := none, error := none
    abortsCtrl := false, settled := false, run := none }

/-- One step of a `useSubmitter` session (src/useSubmitter.ts lines 46-99).
Differences from `useSubmit`: the effect guard is only
`data === undefined || state.pending` (line 64), the effect has no cleanup,
and the `then`/`catch` handlers spread the previous state (lines 78-92), so
they keep the controller-bound abort closure and there is no `done` flag.
`reset` does not exist for this hook (it takes no `deps`). -/
def submitterStep {T R E : Type} [DecidableEq T] (g : E)
    (s : SubmitterSt T R E) : SEv T R E → SubmitterSt T R E
  | .submit v =>
    if v = s.data then s
    else
      let s1 : SubmitterSt T R E := { s with data := v }
      if v = none ∨ s1.pending then s1
      else
        { s1 with
          pending := true, result := none, error := none,
          abortsCtrl := true, run := some (.running none) }
  | .abort reason =>
    if s.abortsCtrl then { s with run := sigAbort g reason s.run } else s
  | .latch out =>
    match s.run with
    | some (.running sig) => { s with run := some (.latched out sig) }
    | _ => s
  | .deliver =>
    match s.run with
    | some (.latched (.resolve v) _) =>
      { s with
        pending := false, result := v, error := none,
        settled := true, run := none }
    | some (.latched (.reject e) _) =>
      { s with
        pending := false, result := none, error := e,
        settled := true, run := none }
    | _ => s
  | .reset => s

/-- Run a `useSubmitter` session from its initial state. -/
def submitterRun {T R E : Type} [DecidableEq T] (g : E)
    (evs : List (SEv T R E)) : SubmitterSt T R E :=
  evs.foldl (submitterStep g) initSubmitter

/-! ## Phase/result invariants of the submit machines (claim C1) -/

/-- Result/error discipline of a `useSubmit` state: never both set, and both
unset unless `done`. -/
def SubmitPhaseInv {T R E : Type} (s : SubmitSt T R E) : Prop :=
  (s.result = none ∨ s.error = none) ∧
  (s.done = false → s.result = none ∧ s.error = none)

/-- Result/error discipline of a `useSubmitter` state: never both set, and
both unset while pending or before any submission has settled. -/
def SubmitterPhaseInv {T R E : Type} (s : SubmitterSt T R E) : Prop :=
  (s.result = none ∨ s.error = none) ∧
  (s.pending = true ∨ s.settled = false → s.result = none ∧ s.error = none)

theorem submitInv_step {T R E : Type} [DecidableEq T] (g : E)
    (s : SubmitSt T R E) (e : SEv T R E) (h : SubmitPhaseInv s) :
    SubmitPhaseInv (submitStep g s e) := by
  obtain ⟨h1, h2⟩ := h
  cases e <;> unfold SubmitPhaseInv <;> simp only [submitStep]
  case submit v =>
    split
    · exact ⟨h1, h2⟩
    · split
      · exact ⟨h1, h2⟩
      · exact ⟨Or.inl rfl, fun _ => ⟨rfl, rfl⟩⟩
  case abort reason =>
    split
    · exact ⟨h1, h2⟩
    · exact ⟨h1, h2⟩
  case latch out =>
    split
    · exact ⟨h1, h2⟩
    · exact ⟨h1, h2⟩
  case deliver =>
    split
    · exact ⟨Or.inr rfl, fun hh => by simp at hh⟩
    · exact ⟨Or.inl rfl, fun hh => by simp at hh⟩
    · exact ⟨h1, h2⟩
  case reset =>
    simp

theorem submitterInv_step {T R E : Type} [DecidableEq T] (g : E)
    (s : SubmitterSt T R E) (e : SEv T R E) (h : SubmitterPhaseInv s) :
    SubmitterPhaseInv (submitterStep g s e) := by
  obtain ⟨h1, h2⟩ := h
  cases e <;> unfold SubmitterPhaseInv <;> simp only [submitterStep]
  case submit v =>
    split
    · exact ⟨h1, h2⟩
    · split
      · exact ⟨h1, h2⟩
      · exact ⟨Or.inl rfl, fun _ => ⟨rfl, rfl⟩⟩
  case abort reason =>
    split
    · exact ⟨h1, h2⟩
    · exact ⟨h1, h2⟩
  case latch out =>
    split
    · exact ⟨h1, h2⟩
    · exact ⟨h1, h2⟩
  case deliver =>
    split
    · exact ⟨Or.inr rfl, fun hh => by simp at hh⟩
    · exact ⟨Or.inl rfl, fun hh => by simp at hh⟩
    · exact ⟨h1, h2⟩
  case reset =>
    exact ⟨h1, h2⟩

theorem submitInv_run {T R E : Type} [DecidableEq T] (g : E)
    (evs : List (SEv T R E)) : SubmitPhaseInv (submitRun g evs) := by
  suffices h : ∀ (s : SubmitSt T R E), SubmitPhaseInv s →
      SubmitPhaseInv (evs.foldl (submitStep g) s) from
    h initSubmit ⟨Or.inl rfl, fun _ => ⟨rfl, rfl⟩⟩
  induction evs with
  | nil => intro s h; exact h
  | cons e rest ih =>
    intro s h
    exact ih (submitStep g s e) (submitInv_step g s e h)

theorem submitterInv_run {T R E : Type} [DecidableEq T] (g : E)
    (evs : List (SEv T R E)) : SubmitterPhaseInv (submitterRun g evs) := by
  suffices h : ∀ (s : SubmitterSt T R E), SubmitterPhaseInv s →
      SubmitterPhaseInv (evs.foldl (submitterStep g) s) from
    h initSubmitter ⟨Or.inl rfl, fun _ => ⟨rfl, rfl⟩⟩
  induction evs with
  | nil => intro s h; exact h
  | cons e rest ih =>
    intro s h
    exact ih (submitterStep g s e) (submitterInv_step g s e h)

/-! ## Claims C1, C4, C9 -/

/-- Claim C1, corrected: the claim's "exactly one of result/error is set at
Done" fails when the wrapped operation settles with an `undefined` payload.
Counterexample for `useSubmit`: an operation that resolves with `undefined`
leaves the session `done` with neither `result` nor `error` set. -/
theorem c1_counterexample :
    (submitRun (T := Nat) (R := Nat) (E := Nat) 99
      [.submit (some 0), .latch (.resolve none), .deliver]).done = true ∧
    (submitRun (T := Nat) (R := Nat) (E := Nat) 99
      [.submit (some 0), .latch (.resolve none), .deliver]).result = none ∧
    (submitRun (T := Nat) (R := Nat) (E := Nat) 99
      [.submit (some 0), .latch (.resolve none), .deliver]).error = none := by
  decide

/-- Claim C1 (amended): in every reachable state of a `useSubmit` or
`useSubmitter` session, at most one of `result` and `error` is set (both
are unset when the operation settled with an `undefined` value or reason),
and while the phase is Idle or Pending (`useSubmit`: not `done`;
`useSubmitter`: pending, or nothing has settled yet) both are unset. -/
theorem c1_done_at_most_one {T R E : Type} [DecidableEq T] (g : E)
    (evsA evsB : List (SEv T R E)) :
    ((submitRun g evsA).result = none ∨ (submitRun g evsA).error = none) ∧
    ((submitRun g evsA).done = false →
      (submitRun g evsA).result = none ∧ (submitRun g evsA).error = none) ∧
    ((submitterRun g evsB).result = none ∨ (submitterRun g evsB).error = none) ∧
    ((submitterRun g evsB).pending = true ∨ (submitterRun g evsB).settled = false →
      (submitterRun g evsB).result = none ∧ (submitterRun g evsB).error = none) := by
  obtain ⟨a1, a2⟩ := submitInv_run g evsA
  obtain ⟨b1, b2⟩ := submitterInv_run g evsB
  exact ⟨a1, a2, b1, b2⟩

theorem c1_witness :
    ((submitRun (T := Nat) (R := Nat) (E := Nat) 99
        [.submit (some 1)]).result = none ∨
      (submitRun (T := Nat) (R := Nat) (E := Nat) 99
        [.submit (some 1)]).error = none) ∧
    ((submitRun (T := Nat) (R := Nat) (E := Nat) 99
        [.submit (some 1)]).done = false →
      (submitRun (T := Nat) (R := Nat) (E := Nat) 99
          [.submit (some 1)]).result = none ∧
        (submitRun (T := Nat) (R := Nat) (E := Nat) 99
          [.submit (some 1)]).error = none) ∧
    ((submitterRun (T := Nat) (R := Nat) (E := Nat) 99
        [.submit (some 1)]).result = none ∨
      (submitterRun (T := Nat) (R := Nat) (E := Nat) 99
        [.submit (some 1)]).error = none) ∧
    ((submitterRun (T := Nat) (R := Nat) (E := Nat) 99
          [.submit (some 1)]).pending = true ∨
        (submitterRun (T := Nat) (R := Nat) (E := Nat) 99
          [.submit (some 1)]).settled = false →
      (submitterRun (T := Nat) (R := Nat) (E := Nat) 99
          [.submit (some 1)]).result = none ∧
        (submitterRun (T := Nat) (R := Nat) (E := Nat) 99
          [.submit (some 1)]).error = none) :=
  c1_done_at_most_one 99 [.submit (some 1)] [.submit (some 1)]

/-- Claim C4, corrected: for `useSubmit`, Done is absorbing for `submit`.
Counterexample: after a settled submission, `submit` of a fresh defined
payload leaves the session `done` with the old result and starts nothing. -/
theorem c4_counterexample :
    (submitRun (T := Nat) (R := Nat) (E := Nat) 99
      [.submit (some 0), .latch (.resolve (some 5)), .deliver,
        .submit (some 1)]).done = true ∧
    (submitRun (T := Nat) (R := Nat) (E := Nat) 99
      [.submit (some 0), .latch (.resolve (some 5)), .deliver,
        .submit (some 1)]).pending = false ∧
    (submitRun (T := Nat) (R := Nat) (E := Nat) 99
      [.submit (some 0), .latch (.resolve (some 5)), .deliver,
        .submit (some 1)]).result = some 5 ∧
    (submitRun (T := Nat) (R := Nat) (E := Nat) 99
      [.submit (some 0), .latch (.resolve (some 5)), .deliver,
        .submit (some 1)]).run = none := by
  decide

/-- Claim C4 (amended): in `useSubmitter`, from any non-pending state a
`submit` of a defined payload different from the stored one is a fresh
trigger: `result` and `error` are cleared, the phase becomes Pending and a
new run starts.  In `useSubmit`, once `done`, any `submit` leaves the
phase, result and error untouched and starts no run; only a deps-change
reset re-enables submission. -/
theorem c4_fresh_trigger {T R E : Type} [DecidableEq T] (g : E)
    (s : SubmitterSt T R E) (s2 : SubmitSt T R E) (x : T) (v : Option T)
    (hp : s.pending = false) (hd : some x ≠ s.data)
    (hdone : s2.done = true) (hrun : s2.run = none) :
    (submitterStep g s (.submit (some x))).pending = true ∧
    (submitterStep g s (.submit (some x))).result = none ∧
    (submitterStep g s (.submit (some x))).error = none ∧
    (submitterStep g s (.submit (some x))).run = some (.running none) ∧
    (submitStep g s2 (.submit v)).done = true ∧
    (submitStep g s2 (.submit v)).pending = s2.pending ∧
    (submitStep g s2 (.submit v)).result = s2.result ∧
    (submitStep g s2 (.submit v)).error = s2.error ∧
    (submitStep g s2 (.submit v)).run = none := by
  have hB : (submitterStep g s (.submit (some x))).pending = true ∧
      (submitterStep g s (.submit (some x))).result = none ∧
      (submitterStep g s (.submit (some x))).error = none ∧
      (submitterStep g s (.submit (some x))).run = some (.running none) := by
    simp only [submitterStep, if_neg hd]
    simp [hp]
  have hA : (submitStep g s2 (.submit v)).done = true ∧
      (submitStep g s2 (.submit v)).pending = s2.pending ∧
      (submitStep g s2 (.submit v)).result = s2.result ∧
      (submitStep g s2 (.submit v)).error = s2.error ∧
      (submitStep g s2 (.submit v)).run = none := by
    by_cases hv : v = s2.data
    · simp [submitStep, hv, hdone, hrun]
    · simp [submitStep, hv, hdone, hrun, sigAbort]
  exact ⟨hB.1, hB.2.1, hB.2.2.1, hB.2.2.2, hA.1, hA.2.1, hA.2.2.1,
    hA.2.2.2.1, hA.2.2.2.2⟩

theorem c4_witness :
    (submitterStep (T := Nat) (R := Nat) (E := Nat) 99
      ⟨some 1, false, some 3, none, true, true, none⟩
      (.submit (some 2))).pending = true ∧
    (submitterStep (T := Nat) (R := Nat) (E := Nat) 99
      ⟨some 1, false, some 3, none, true, true, none⟩
      (.submit (some 2))).result = none ∧
    (submitterStep (T := Nat) (R := Nat) (E := Nat) 99
      ⟨some 1, false, some 3, none, true, true, none⟩
      (.submit (some 2))).error = none ∧
    (submitterStep (T := Nat) (R := Nat) (E := Nat) 99
      ⟨some 1, false, some 3, none, true, true, none⟩
      (.submit (some 2))).run = some (.running none) ∧
    (submitStep (T := Nat) (R := Nat) (E := Nat) 99
      ⟨some 1, false, true, some 5, none, false, none⟩
      (.submit (some 2))).done = true ∧
    (submitStep (T := Nat) (R := Nat) (E := Nat) 99
      ⟨some 1, false, true, some 5, none, false, none⟩
      (.submit (some 2))).pending = false ∧
    (submitStep (T := Nat) (R := Nat) (E := Nat) 99
      ⟨some 1, false, true, some 5, none, false, none⟩
      (.submit (some 2))).result = some 5 ∧
    (submitStep (T := Nat) (R := Nat) (E := Nat) 99
      ⟨some 1, false, true, some 5, none, false, none⟩
      (.submit (some 2))).error = none ∧
    (submitStep (T := Nat) (R := Nat) (E := Nat) 99
      ⟨some 1, false, true, some 5, none, false, none⟩
      (.submit (some 2))).run = none :=
  c4_fresh_trigger 99 ⟨some 1, false, some 3, none, true, true, none⟩
    ⟨some 1, false, true, some 5, none, false, none⟩ 2 (some 2)
    (by decide) (by decide) (by decide) (by decide)

/-- Claim C9: `submit(undefined)` never starts a request: the effect guard
`data === undefined` returns before invoking the operation, so the phase,
result and error fields are all unchanged and no new run is created (in
`useSubmit` the data change does run the previous effect's cleanup, but
with no active run the run slot stays empty). -/
theorem c9_submit_undefined_noop {T R E : Type} [DecidableEq T] (g : E)
    (s : SubmitSt T R E) (s2 : SubmitterSt T R E) :
    (submitStep g s (.submit none)).pending = s.pending ∧
    (submitStep g s (.submit none)).done = s.done ∧
    (submitStep g s (.submit none)).result = s.result ∧
    (submitStep g s (.submit none)).error = s.error ∧
    (s.run = none → (submitStep g s (.submit none)).run = none) ∧
    (submitterStep g s2 (.submit none)).pending = s2.pending ∧
    (submitterStep g s2 (.submit none)).result = s2.result ∧
    (submitterStep g s2 (.submit none)).error = s2.error ∧
    (submitterStep g s2 (.submit none)).run = s2.run := by
  have hA : (submitStep g s (.submit none)).pending = s.pending ∧
      (submitStep g s (.submit none)).done = s.done ∧
      (submitStep g s (.submit none)).result = s.result ∧
      (submitStep g s (.submit none)).error = s.error ∧
      (s.run = none → (submitStep g s (.submit none)).run = none) := by
    by_cases hv : (none : Option T) = s.data
    · simp [submitStep, hv]
    · simp only [submitStep, if_neg hv]
      simp [sigAbort]
      intro hr
      simp [hr]
  have hB : (submitterStep g s2 (.submit none)).pending = s2.pending ∧
      (submitterStep g s2 (.submit none)).result = s2.result ∧
      (submitterStep g s2 (.submit none)).error = s2.error ∧
      (submitterStep g s2 (.submit none)).run = s2.run := by
    by_cases hv : (none : Option T) = s2.data
    · simp [submitterStep, hv]
    · simp [submitterStep, if_neg hv]
  exact ⟨hA.1, hA.2.1, hA.2.2.1, hA.2.2.2.1, hA.2.2.2.2,
    hB.1, hB.2.1, hB.2.2.1, hB.2.2.2⟩

theorem c9_witness :
    (submitStep (T := Nat) (R := Nat) (E := Nat) 99 initSubmit
      (.submit none)).pending = false ∧
    (submitStep (T := Nat) (R := Nat) (E := Nat) 99 initSubmit
      (.submit none)).done = false ∧
    (submitStep (T := Nat) (R := Nat) (E := Nat) 99 initSubmit
      (.submit none)).result = none ∧
    (submitStep (T := Nat) (R := Nat) (E := Nat) 99 initSubmit
      (.submit none)).error = none ∧
    ((none : Option (RunSt Nat Nat)) = none →
      (submitStep (T := Nat) (R := Nat) (E := Nat) 99 initSubmit
        (.submit none)).run = none) ∧
    (submitterStep (T := Nat) (R := Nat) (E := Nat) 99 initSubmitter
      (.submit none)).pending = false ∧
    (submitterStep (T := Nat) (R := Nat) (E := Nat) 99 initSubmitter
      (.submit none)).result = none ∧
    (submitterStep (T := Nat) (R := Nat) (E := Nat) 99 initSubmitter
      (.submit none)).error = none ∧
    (submitterStep (T := Nat) (R := Nat) (E := Nat) 99 initSubmitter
      (.submit none)).run = none :=
  c9_submit_undefined_noop 99 initSubmit initSubmitter

/-! ## The `useAsyncData` machines

Two variants: `src/useAsyncData.ts` (whose `then` handler checks
`signal.aborted` and whose `catch` wraps non-`Error` reasons) and the
variant in `src/unnamed/part_010` (no aborted check, stores the rejection
reason verbatim).  The model covers one request cycle: the mount effect
starts one run; `deps` are fixed and there is no unmount. -/

/-- JS error-value structure used by the `catch` handler of
`src/useAsyncData.ts`: the `instanceof Error` test, the wrapping
`new Error(String(x))` of a non-`Error` (or `undefined`) reason, and the
generic "AbortError" `DOMException` produced by `AbortController.abort()`
without a reason.  A `DOMException` is an `Error`. -/
structure ErrSpace (E : Type) where
  isError : E → Bool
  wrap : Option E → E
  genericAbort : E
  genericAbort_isError : isError genericAbort = true

/-- The value stored into `error` by the `catch` of `src/useAsyncData.ts`
(lines 117-131): the rejection reason verbatim when it is an `Error`
instance, otherwise an `Error` wrapping its string form. -/
def normalizeErr {E : Type} (es : ErrSpace E) : Option E → E
  | some e => if es.isError e then e else es.wrap (some e)
  | none => es.wrap none

/-- Events driving one `useAsyncData` request cycle. -/
inductive AEv (R E : Type) where
  | start
  | abort (reason : Option E)
  | latch (out : Outcome R E)
  | deliver

/-- State of one `useAsyncData` session: the `state` record (`loading`,
`data`, `error`, plus whether the exposed `abort` closure targets the
active controller), the undelivered run, and — as instrumentation for the
controller contract — the list of terminal outcomes delivered so far. -/
structure AsyncSt (R E : Type) where
  loading    : Bool
  data       : Option R
  error      : Option E
  abortsCtrl : Bool
  run        : Option (RunSt R E)
  log        : List (Outcome R E)
  deriving Repr, DecidableEq

/-- Initial `useAsyncData` state (src/useAsyncData.ts lines 74-79); this is
also where the session stays when `shouldRequest` returns `false`. -/
def initAsync {R E : Type} : AsyncSt R E :=
  { loading := false, data := none, error := none, abortsCtrl := false
    run := none, log := [] }

/-- One step of a `src/useAsyncData.ts` session (lines 93-138).

* `start` is the mount effect body with `shouldRequest` passing: create a
  controller, set the loading state (lines 97-105) and invoke the
  operation; it fires once per modelled cycle.
* `abort reason` calls the exposed abort closure.
* `latch out` is the natural settlement of the operation's promise.
* `deliver` runs the `then`/`catch` handler: the `then` drops a resolved
  value when `signal.aborted` is already set (line 108); the `catch`
  stores the normalized rejection reason (lines 117-131).  Both spread the
  previous state, keeping the controller-bound abort closure. -/
def asyncStep {R E : Type} (es : ErrSpace E) (s : AsyncSt R E) :
    AEv R E → AsyncSt R E
  | .start =>
    match s.loading, s.run, s.log with
    | false, none, [] =>
      { loading := true, data := none, error := none, abortsCtrl := true
        run := some (.running none), log := [] }
    | _, _, _ => s
  | .abort reason =>
    if s.abortsCtrl then
      { s with run := sigAbort es.genericAbort reason s.run }
    else s
  | .latch out =>
    match s.run with
    | some (.running sig) => { s with run := some (.latched out sig) }
    | _ => s
  | .deliver =>
    match s.run with
    | some (.latched (.resolve v) sig) =>
      if sig.isSome then { s with run := none }
      else
        { s with
          loading := false, data := v, error := none, run := none,
          log := s.log ++ [.resolve v] }
    | some (.latched (.reject e) _) =>
      { s with
        loading := false, data := none, error := some (normalizeErr es e),
        run := none, log := s.log ++ [.reject e] }
    | _ => s

/-- Run a `src/useAsyncData.ts` session from its initial state. -/
def asyncRun {R E : Type} (es : ErrSpace E) (evs : List (AEv R E)) :
    AsyncSt R E :=
  evs.foldl (asyncStep es) initAsync

/-- One step of the `useAsyncData` variant of `src/unnamed/part_010`
(lines 216-277).  Differences from `src/useAsyncData.ts`: the `then`
handler has no `signal.aborted` check, the `catch` stores the rejection
reason verbatim (`err as E`, line 265), and both handlers install the
no-op abort closure (lines 259, 266). -/
def asyncAltStep {R E : Type} (g : E) (s : AsyncSt R E) :
    AEv R E → AsyncSt R E
  | .start =>
    match s.loading, s.run, s.log with
    | false, none, [] =>
      { loading := true, data := none, error := none, abortsCtrl := true
        run := some (.running none), log := [] }
    | _, _, _ => s
  | .abort reason =>
    if s.abortsCtrl then { s with run := sigAbort g reason s.run } else s
  | .latch out =>
    match s.run with
    | some (.running sig) => { s with run := some (.latched out sig) }
    | _ => s
  | .deliver =>
    match s.run with
    | some (.latched (.resolve v) _) =>
      { s with
        loading := false, data := v, error := none, abortsCtrl := false,
        run := none, log := s.log ++ [.resolve v] }
    | some (.latched (.reject e) _) =>
      { s with
        loading := false, data := none, error := e, abortsCtrl := false,
        run := none, log := s.log ++ [.reject e] }
    | _ => s

/-- Run a part_010 `useAsyncData` session from its initial state. -/
def asyncAltRun {R E : Type} (g : E) (evs : List (AEv R E)) :
    AsyncSt R E :=
  evs.foldl (asyncAltStep g) initAsync

/-- Reachability invariant of both `useAsyncData` machines: a non-loading
state has no undelivered run; an undelivered run implies the exposed abort
targets the controller; at most one terminal outcome has been delivered;
and nothing has been delivered while a run is undelivered. -/
def AsyncInv {R E : Type} (s : AsyncSt R E) : Prop :=
  (s.loading = false → s.run = none) ∧
  (s.run = none ∨ s.abortsCtrl = true) ∧
  s.log.length ≤ 1 ∧
  (s.run = none ∨ s.log = [])

theorem asyncInv_step {R E : Type} (es : ErrSpace E) (s : AsyncSt R E)
    (e : AEv R E) (h : AsyncInv s) : AsyncInv (asyncStep es s e) := by
  obtain ⟨h1, h2, h3, h4⟩ := h
  cases e
  case start =>
    simp only [asyncStep]
    split
    · exact ⟨fun hl => by simp at hl, Or.inr rfl, by simp, Or.inr rfl⟩
    · exact ⟨h1, h2, h3, h4⟩
  case abort reason =>
    simp only [asyncStep]
    split
    · next habc =>
      refine ⟨?_, Or.inr habc, h3, ?_⟩
      · intro hl
        show sigAbort es.genericAbort reason s.run = none
        rw [h1 hl]
        rfl
      · cases h4 with
        | inl hr =>
          refine Or.inl ?_
          show sigAbort es.genericAbort reason s.run = none
          rw [hr]
          rfl
        | inr hl => exact Or.inr hl
    · exact ⟨h1, h2, h3, h4⟩
  case latch out =>
    simp only [asyncStep]
    split
    · next sig heq =>
      refine ⟨?_, Or.inr ?_, h3, Or.inr ?_⟩
      · intro hl
        rw [h1 hl] at heq
        simp at heq
      · cases h2 with
        | inl hr => rw [hr] at heq; simp at heq
        | inr hb => exact hb
      · cases h4 with
        | inl hr => rw [hr] at heq; simp at heq
        | inr hl => exact hl
    · exact ⟨h1, h2, h3, h4⟩
  case deliver =>
    simp only [asyncStep]
    split
    · next v sig heq =>
      split
      · exact ⟨fun _ => rfl, Or.inl rfl, h3, Or.inl rfl⟩
      · refine ⟨fun _ => rfl, Or.inl rfl, ?_, Or.inl rfl⟩
        cases h4 with
        | inl hr => rw [hr] at heq; simp at heq
        | inr hl => simp [hl]
    · next e0 heq =>
      refine ⟨fun _ => rfl, Or.inl rfl, ?_, Or.inl rfl⟩
      cases h4 with
      | inl hr => rw [hr] at heq; simp at heq
      | inr hl => simp [hl]
    · exact ⟨h1, h2, h3, h4⟩

theorem asyncInv_run {R E : Type} (es : ErrSpace E) (evs : List (AEv R E)) :
    AsyncInv (asyncRun es evs) := by
  suffices h : ∀ (s : AsyncSt R E), AsyncInv s →
      AsyncInv (evs.foldl (asyncStep es) s) from
    h initAsync ⟨fun _ => rfl, Or.inl rfl, by simp [initAsync], Or.inl rfl⟩
  induction evs with
  | nil => intro s h; exact h
  | cons e rest ih =>
    intro s h
    exact ih (asyncStep es s e) (asyncInv_step es s e h)

theorem asyncAltInv_step {R E : Type} (g : E) (s : AsyncSt R E)
    (e : AEv R E) (h : AsyncInv s) : AsyncInv (asyncAltStep g s e) := by
  obtain ⟨h1, h2, h3, h4⟩ := h
  cases e
  case start =>
    simp only [asyncAltStep]
    split
    · exact ⟨fun hl => by simp at hl, Or.inr rfl, by simp, Or.inr rfl⟩
    · exact ⟨h1, h2, h3, h4⟩
  case abort reason =>
    simp only [asyncAltStep]
    split
    · next habc =>
      refine ⟨?_, Or.inr habc, h3, ?_⟩
      · intro hl
        show sigAbort g reason s.run = none
        rw [h1 hl]
        rfl
      · cases h4 with
        | inl hr =>
          refine Or.inl ?_
          show sigAbort g reason s.run = none
          rw [hr]
          rfl
        | inr hl => exact Or.inr hl
    · exact ⟨h1, h2, h3, h4⟩
  case latch out =>
    simp only [asyncAltStep]
    split
    · next sig heq =>
      refine ⟨?_, Or.inr ?_, h3, Or.inr ?_⟩
      · intro hl
        rw [h1 hl] at heq
        simp at heq
      · cases h2 with
        | inl hr => rw [hr] at heq; simp at heq
        | inr hb => exact hb
      · cases h4 with
        | inl hr => rw [hr] at heq; simp at heq
        | inr hl => exact hl
    · exact ⟨h1, h2, h3, h4⟩
  case deliver =>
    simp only [asyncAltStep]
    split
    · next v sig heq =>
      refine ⟨fun _ => rfl, Or.inl rfl, ?_, Or.inl rfl⟩
      cases h4 with
      | inl hr => rw [hr] at heq; simp at heq
      | inr hl => simp [hl]
    · next e0 heq =>
      refine ⟨fun _ => rfl, Or.inl rfl, ?_, Or.inl rfl⟩
      cases h4 with
      | inl hr => rw [hr] at heq; simp at heq
      | inr hl => simp [hl]
    · exact ⟨h1, h2, h3, h4⟩

theorem asyncAltInv_run {R E : Type} (g : E) (evs : List (AEv R E)) :
    AsyncInv (asyncAltRun g evs) := by
  suffices h : ∀ (s : AsyncSt R E), AsyncInv s →
      AsyncInv (evs.foldl (asyncAltStep g) s) from
    h initAsync ⟨fun _ => rfl, Or.inl rfl, by simp [initAsync], Or.inl rfl⟩
  induction evs with
  | nil => intro s h; exact h
  | cons e rest ih =>
    intro s h
    exact ih (asyncAltStep g s e) (asyncAltInv_step g s e h)

/-! The exposed abort closure of a `useSubmit` session targets the active
controller exactly while the session is pending. -/

theorem submitCtrl_step {T R E : Type} [DecidableEq T] (g : E)
    (s : SubmitSt T R E) (e : SEv T R E) (h : s.abortsCtrl = s.pending) :
    (submitStep g s e).abortsCtrl = (submitStep g s e).pending := by
  cases e <;> simp only [submitStep]
  case submit v =>
    split
    · exact h
    · split
      · exact h
      · rfl
  case abort reason =>
    split
    · exact h
    · exact h
  case latch out =>
    split
    · exact h
    · exact h
  case deliver =>
    split
    · rfl
    · rfl
    · exact h

theorem submitCtrl_run {T R E : Type} [DecidableEq T] (g : E)
    (evs : List (SEv T R E)) :
    (submitRun g evs).abortsCtrl = (submitRun g evs).pending := by
  suffices h : ∀ (s : SubmitSt T R E), s.abortsCtrl = s.pending →
      (evs.foldl (submitStep g) s).abortsCtrl
        = (evs.foldl (submitStep g) s).pending from
    h initSubmit rfl
  induction evs with
  | nil => intro s h; exact h
  | cons e rest ih =>
    intro s h
    exact ih (submitStep g s e) (submitCtrl_step g s e h)

/-! ## Abort continuations (claims C2 and C3)

An operation that honors its cancellation signal settles, promptly after
the signal is aborted, by rejecting with `signal.reason` (the forwarded
abort reason).  The continuations below are that canonical event sequence:
abort, then the honoring settlement, then handler delivery. -/

/-- Continuation of a `useSubmit` session after `abort r` for an operation
honoring its signal. -/
def submitAbortCont {T R E : Type} [DecidableEq T] (g : E)
    (s : SubmitSt T R E) (r : Option E) : SubmitSt T R E :=
  submitStep g (submitStep g (submitStep g s (.abort r))
    (.latch (.reject (some (forwardReason g r))))) .deliver

/-- Continuation of a `src/useAsyncData.ts` session after `abort r` for an
operation honoring its signal. -/
def asyncAbortCont {R E : Type} (es : ErrSpace E)
    (s : AsyncSt R E) (r : Option E) : AsyncSt R E :=
  asyncStep es (asyncStep es (asyncStep es s (.abort r))
    (.latch (.reject (some (forwardReason es.genericAbort r))))) .deliver

/-- Continuation of a part_010 `useAsyncData` session after `abort r` for
an operation honoring its signal. -/
def asyncAltAbortCont {R E : Type} (g : E)
    (s : AsyncSt R E) (r : Option E) : AsyncSt R E :=
  asyncAltStep g (asyncAltStep g (asyncAltStep g s (.abort r))
    (.latch (.reject (some (forwardReason g r))))) .deliver

theorem submitAbortCont_spec {T R E : Type} [DecidableEq T] (g : E)
    (s : SubmitSt T R E) (r : Option E)
    (hac : s.abortsCtrl = true) (hr : s.run = some (.running none)) :
    (submitAbortCont g s r).done = true ∧
    (submitAbortCont g s r).pending = false ∧
    (submitAbortCont g s r).error = some (forwardReason g r) ∧
    (submitAbortCont g s r).result = none := by
  simp [submitAbortCont, submitStep, hac, hr, sigAbort]

theorem submitAbortNoop {T R E : Type} [DecidableEq T] (g : E)
    (s : SubmitSt T R E) (r : Option E) (hac : s.abortsCtrl = false) :
    submitStep g s (.abort r) = s := by
  simp [submitStep, hac]

theorem asyncAbortCont_spec {R E : Type} (es : ErrSpace E)
    (s : AsyncSt R E) (r : Option E)
    (hac : s.abortsCtrl = true) (hr : s.run = some (.running none)) :
    (asyncAbortCont es s r).loading = false ∧
    (asyncAbortCont es s r).error
      = some (normalizeErr es (some (forwardReason es.genericAbort r))) ∧
    (asyncAbortCont es s r).data = none ∧
    (asyncAbortCont es s r).log
      = s.log ++ [.reject (some (forwardReason es.genericAbort r))] := by
  simp [asyncAbortCont, asyncStep, hac, hr, sigAbort]

theorem asyncAltAbortCont_spec {R E : Type} (g : E)
    (s : AsyncSt R E) (r : Option E)
    (hac : s.abortsCtrl = true) (hr : s.run = some (.running none)) :
    (asyncAltAbortCont g s r).loading = false ∧
    (asyncAltAbortCont g s r).error = some (forwardReason g r) ∧
    (asyncAltAbortCont g s r).data = none ∧
    (asyncAltAbortCont g s r).log
      = s.log ++ [.reject (some (forwardReason g r))] := by
  simp [asyncAltAbortCont, asyncAltStep, hac, hr, sigAbort]

theorem asyncAbortNoop {R E : Type} (es : ErrSpace E) (s : AsyncSt R E)
    (r : Option E) (hrun : s.run = none) :
    asyncStep es s (.abort r) = s := by
  rcases s with ⟨l, d, er, ac, run, lg⟩
  simp only at hrun
  subst hrun
  cases ac <;> simp [asyncStep, sigAbort]

theorem asyncResolveAbortDrop {R E : Type} (es : ErrSpace E)
    (s : AsyncSt R E) (v : Option R) (r : Option E)
    (hac : s.abortsCtrl = true) (hr : s.run = some (.running none)) :
    (asyncStep es (asyncStep es (asyncStep es s
        (.latch (.resolve v))) (.abort r)) .deliver).log = s.log ∧
    (asyncStep es (asyncStep es (asyncStep es s
        (.latch (.resolve v))) (.abort r)) .deliver).loading = s.loading ∧
    (asyncStep es (asyncStep es (asyncStep es s
        (.latch (.resolve v))) (.abort r)) .deliver).data = s.data ∧
    (asyncStep es (asyncStep es (asyncStep es s
        (.latch (.resolve v))) (.abort r)) .deliver).error = s.error := by
  simp [asyncStep, hac, hr, sigAbort]

theorem asyncAltResolveAbort {R E : Type} (g : E)
    (s : AsyncSt R E) (v : Option R) (r : Option E)
    (hr : s.run = some (.running none)) :
    (asyncAltStep g (asyncAltStep g (asyncAltStep g s
        (.latch (.resolve v))) (.abort r)) .deliver).log
      = s.log ++ [.resolve v] ∧
    (asyncAltStep g (asyncAltStep g (asyncAltStep g s
        (.latch (.resolve v))) (.abort r)) .deliver).data = v ∧
    (asyncAltStep g (asyncAltStep g (asyncAltStep g s
        (.latch (.resolve v))) (.abort r)) .deliver).error = none ∧
    (asyncAltStep g (asyncAltStep g (asyncAltStep g s
        (.latch (.resolve v))) (.abort r)) .deliver).loading = false := by
  cases habc : s.abortsCtrl <;> simp [asyncAltStep, habc, hr, sigAbort]

/-! ## Claims C2 and C3 -/

/-- A concrete error space for witnesses and counterexamples: even numbers
play the role of `Error` instances, `wrap` yields an even number, and 0 is
the generic "AbortError". -/
def sampleErrSpace : ErrSpace Nat where
  isError := fun n => n % 2 == 0
  wrap := fun e => 2 * e.getD 0
  genericAbort := 0
  genericAbort_isError := rfl

/-- Claim C2, corrected: aborting while the phase is Pending does not
always lead to an abort error.  Counterexample for `useSubmit`: the
operation resolves, `abort` is called while the handler has not yet run
(the phase is still Pending), and the delivered state is Done with the
result, not the abort error. -/
theorem c2_counterexample :
    (submitRun (T := Nat) (R := Nat) (E := Nat) 99
      [.submit (some 0), .latch (.resolve (some 5))]).pending = true ∧
    (submitRun (T := Nat) (R := Nat) (E := Nat) 99
      [.submit (some 0), .latch (.resolve (some 5)), .abort none,
        .deliver]).done = true ∧
    (submitRun (T := Nat) (R := Nat) (E := Nat) 99
      [.submit (some 0), .latch (.resolve (some 5)), .abort none,
        .deliver]).result = some 5 ∧
    (submitRun (T := Nat) (R := Nat) (E := Nat) 99
      [.submit (some 0), .latch (.resolve (some 5)), .abort none,
        .deliver]).error = none := by
  decide

/-- Claim C2 (amended): for an operation honoring its signal, `abort r`
called while Pending and before the operation has settled drives the
session to Done with the error derived from the forwarded reason —
verbatim in `useSubmit`; in `useAsyncData` normalized by its `catch`
(verbatim for `Error` reasons, wrapped otherwise), with the generic abort
error when no reason is supplied — and the result/data unset.  Calling
`abort` while Idle or after settlement changes no state field. -/
theorem c2_abort_while_pending {T R E : Type} [DecidableEq T]
    (es : ErrSpace E) (evsA evsA2 : List (SEv T R E))
    (evsC evsC2 : List (AEv R E)) (r : Option E)
    (hp : (submitRun es.genericAbort evsA).pending = true)
    (hr : (submitRun es.genericAbort evsA).run = some (.running none))
    (hc : (asyncRun es evsC).run = some (.running none))
    (hi : (submitRun es.genericAbort evsA2).pending = false)
    (hl : (asyncRun es evsC2).loading = false) :
    (submitAbortCont es.genericAbort (submitRun es.genericAbort evsA) r).done
      = true ∧
    (submitAbortCont es.genericAbort (submitRun es.genericAbort evsA) r).pending
      = false ∧
    (submitAbortCont es.genericAbort (submitRun es.genericAbort evsA) r).error
      = some (forwardReason es.genericAbort r) ∧
    (submitAbortCont es.genericAbort (submitRun es.genericAbort evsA) r).result
      = none ∧
    (asyncAbortCont es (asyncRun es evsC) r).loading = false ∧
    (asyncAbortCont es (asyncRun es evsC) r).error
      = some (normalizeErr es (some (forwardReason es.genericAbort r))) ∧
    (asyncAbortCont es (asyncRun es evsC) r).data = none ∧
    (r = none →
      (asyncAbortCont es (asyncRun es evsC) r).error = some es.genericAbort) ∧
    submitStep es.genericAbort (submitRun es.genericAbort evsA2) (.abort r)
      = submitRun es.genericAbort evsA2 ∧
    asyncStep es (asyncRun es evsC2) (.abort r) = asyncRun es evsC2 := by
  have hacA : (submitRun es.genericAbort evsA).abortsCtrl = true := by
    rw [submitCtrl_run]
    exact hp
  have hacC : (asyncRun es evsC).abortsCtrl = true := by
    rcases (asyncInv_run es evsC).2.1 with h | h
    · rw [h] at hc
      simp at hc
    · exact h
  obtain ⟨hA1, hA2, hA3, hA4⟩ :=
    submitAbortCont_spec es.genericAbort (submitRun es.genericAbort evsA) r hacA hr
  obtain ⟨hC1, hC2, hC3, _⟩ :=
    asyncAbortCont_spec es (asyncRun es evsC) r hacC hc
  refine ⟨hA1, hA2, hA3, hA4, hC1, hC2, hC3, ?_, ?_, ?_⟩
  · intro h0
    subst h0
    rw [hC2]
    simp [normalizeErr, forwardReason, es.genericAbort_isError]
  · refine submitAbortNoop es.genericAbort _ r ?_
    rw [submitCtrl_run]
    exact hi
  · exact asyncAbortNoop es _ r ((asyncInv_run es evsC2).1 hl)

theorem c2_witness :
    (submitAbortCont sampleErrSpace.genericAbort
      (submitRun (T := Nat) (R := Nat) sampleErrSpace.genericAbort
        [.submit (some 1)]) none).done = true ∧
    (submitAbortCont sampleErrSpace.genericAbort
      (submitRun (T := Nat) (R := Nat) sampleErrSpace.genericAbort
        [.submit (some 1)]) none).pending = false ∧
    (submitAbortCont sampleErrSpace.genericAbort
      (submitRun (T := Nat) (R := Nat) sampleErrSpace.genericAbort
        [.submit (some 1)]) none).error = some 0 ∧
    (submitAbortCont sampleErrSpace.genericAbort
      (submitRun (T := Nat) (R := Nat) sampleErrSpace.genericAbort
        [.submit (some 1)]) none).result = none ∧
    (asyncAbortCont sampleErrSpace
      (asyncRun (R := Nat) sampleErrSpace [.start]) none).loading = false ∧
    (asyncAbortCont sampleErrSpace
      (asyncRun (R := Nat) sampleErrSpace [.start]) none).error = some 0 ∧
    (asyncAbortCont sampleErrSpace
      (asyncRun (R := Nat) sampleErrSpace [.start]) none).data = none ∧
    ((none : Option Nat) = none →
      (asyncAbortCont sampleErrSpace
        (asyncRun (R := Nat) sampleErrSpace [.start]) none).error = some 0) ∧
    submitStep sampleErrSpace.genericAbort
      (submitRun (T := Nat) (R := Nat) sampleErrSpace.genericAbort [])
      (.abort none)
      = submitRun sampleErrSpace.genericAbort [] ∧
    asyncStep sampleErrSpace (asyncRun (R := Nat) sampleErrSpace [])
      (.abort none)
      = asyncRun sampleErrSpace [] :=
  c2_abort_while_pending sampleErrSpace [.submit (some 1)] [] [.start] [] none
    (by decide) (by decide) (by decide) (by decide) (by decide)

/-- Claim C3, corrected: in `src/useAsyncData.ts`, when the operation
resolves first and cancel is requested immediately afterwards (before the
handler runs), the resolved outcome is not delivered at all — the
`signal.aborted` check drops it and the session stays loading. -/
theorem c3_counterexample :
    (asyncRun sampleErrSpace
      [.start, .latch (.resolve (some 7)), .abort none, .deliver]).log
      = ([] : List (Outcome Nat Nat)) ∧
    (asyncRun sampleErrSpace
      [.start, .latch (.resolve (some 7)), .abort none, .deliver]).loading
      = true ∧
    (asyncRun sampleErrSpace
      [.start, .latch (.resolve (some 7)), .abort none, .deliver]).data
      = none := by
  decide

/-- Claim C3 (amended): for operations honoring their signal, cancellation
observed before resolution yields a delivered Aborted outcome in both
`useAsyncData` variants; when the operation resolves first, the part_010
variant delivers the operation's own result even if cancel is requested
immediately afterwards, while `src/useAsyncData.ts` silently drops the
resolved outcome (nothing is delivered and the loading state is
unchanged); in both variants at most one terminal outcome is ever
delivered per run. -/
theorem c3_last_writer {R E : Type} (es : ErrSpace E) (g : E)
    (evsC evsD evsC2 evsD2 : List (AEv R E)) (v : Option R) (r : Option E)
    (hc : (asyncRun es evsC).run = some (.running none))
    (hd : (asyncAltRun g evsD).run = some (.running none)) :
    (asyncAbortCont es (asyncRun es evsC) r).log
      = [.reject (some (forwardReason es.genericAbort r))] ∧
    (asyncAltAbortCont g (asyncAltRun g evsD) r).log
      = [.reject (some (forwardReason g r))] ∧
    (asyncAltStep g (asyncAltStep g (asyncAltStep g (asyncAltRun g evsD)
        (.latch (.resolve v))) (.abort r)) .deliver).log = [.resolve v] ∧
    (asyncAltStep g (asyncAltStep g (asyncAltStep g (asyncAltRun g evsD)
        (.latch (.resolve v))) (.abort r)) .deliver).data = v ∧
    (asyncStep es (asyncStep es (asyncStep es (asyncRun es evsC)
        (.latch (.resolve v))) (.abort r)) .deliver).log = [] ∧
    (asyncStep es (asyncStep es (asyncStep es (asyncRun es evsC)
        (.latch (.resolve v))) (.abort r)) .deliver).loading
      = (asyncRun es evsC).loading ∧
    (asyncStep es (asyncStep es (asyncStep es (asyncRun es evsC)
        (.latch (.resolve v))) (.abort r)) .deliver).data
      = (asyncRun es evsC).data ∧
    (asyncRun es evsC2).log.length ≤ 1 ∧
    (asyncAltRun g evsD2).log.length ≤ 1 := by
  have hacC : (asyncRun es evsC).abortsCtrl = true := by
    rcases (asyncInv_run es evsC).2.1 with h | h
    · rw [h] at hc
      simp at hc
    · exact h
  have hacD : (asyncAltRun g evsD).abortsCtrl = true := by
    rcases (asyncAltInv_run g evsD).2.1 with h | h
    · rw [h] at hd
      simp at hd
    · exact h
  have hlogC : (asyncRun es evsC).log = [] := by
    rcases (asyncInv_run es evsC).2.2.2 with h | h
    · rw [h] at hc
      simp at hc
    · exact h
  have hlogD : (asyncAltRun g evsD).log = [] := by
    rcases (asyncAltInv_run g evsD).2.2.2 with h | h
    · rw [h] at hd
      simp at hd
    · exact h
  obtain ⟨_, _, _, ha4⟩ := asyncAbortCont_spec es (asyncRun es evsC) r hacC hc
  obtain ⟨_, _, _, hb4⟩ := asyncAltAbortCont_spec g (asyncAltRun g evsD) r hacD hd
  obtain ⟨hc1, hc2, hc3, _⟩ :=
    asyncResolveAbortDrop es (asyncRun es evsC) v r hacC hc
  obtain ⟨hd1, hd2, _, _⟩ := asyncAltResolveAbort g (asyncAltRun g evsD) v r hd
  refine ⟨?_, ?_, ?_, hd2, ?_, hc2, hc3,
    (asyncInv_run es evsC2).2.2.1, (asyncAltInv_run g evsD2).2.2.1⟩
  · rw [ha4, hlogC]
    simp
  · rw [hb4, hlogD]
    simp
  · rw [hd1, hlogD]
    simp
  · rw [hc1]
    exact hlogC

theorem c3_witness :
    (asyncAbortCont sampleErrSpace
      (asyncRun (R := Nat) sampleErrSpace [.start]) none).log
      = [.reject (some 0)] ∧
    (asyncAltAbortCont 0 (asyncAltRun (R := Nat) (E := Nat) 0 [.start]) none).log
      = [.reject (some 0)] ∧
    (asyncAltStep 0 (asyncAltStep 0 (asyncAltStep 0
        (asyncAltRun (R := Nat) (E := Nat) 0 [.start])
        (.latch (.resolve (some 7)))) (.abort none)) .deliver).log
      = [.resolve (some 7)] ∧
    (asyncAltStep 0 (asyncAltStep 0 (asyncAltStep 0
        (asyncAltRun (R := Nat) (E := Nat) 0 [.start])
        (.latch (.resolve (some 7)))) (.abort none)) .deliver).data
      = some 7 ∧
    (asyncStep sampleErrSpace (asyncStep sampleErrSpace (asyncStep sampleErrSpace
        (asyncRun (R := Nat) sampleErrSpace [.start])
        (.latch (.resolve (some 7)))) (.abort none)) .deliver).log = [] ∧
    (asyncStep sampleErrSpace (asyncStep sampleErrSpace (asyncStep sampleErrSpace
        (asyncRun (R := Nat) sampleErrSpace [.start])
        (.latch (.resolve (some 7)))) (.abort none)) .deliver).loading
      = (asyncRun (R := Nat) sampleErrSpace [.start]).loading ∧
    (asyncStep sampleErrSpace (asyncStep sampleErrSpace (asyncStep sampleErrSpace
        (asyncRun (R := Nat) sampleErrSpace [.start])
        (.latch (.resolve (some 7)))) (.abort none)) .deliver).data
      = (asyncRun (R := Nat) sampleErrSpace [.start]).data ∧
    (asyncRun (R := Nat) sampleErrSpace ([] : List (AEv Nat Nat))).log.length ≤ 1 ∧
    (asyncAltRun (R := Nat) (E := Nat) 0
      ([] : List (AEv Nat Nat))).log.length ≤ 1 :=
  c3_last_writer sampleErrSpace 0 [.start] [.start] [] [] (some 7) none
    (by decide) (by decide)

end ReactHooks
